import Mathlib

/-!
# Verification of the tokyo-gourmet candidate-selection and travel-estimation core

Shallow embedding of the Python backend (`backend/recommender.py`,
`backend/routes_client.py`, `backend/site_generator.py`) into Lean 4.

Modelling conventions:
* Python `float` arithmetic is modelled by exact rationals (`ℚ`); Python's
  built-in `round` (round-half-to-even) is modelled by `pythonRound`.
* Python dictionaries with optional keys are modelled by structures with
  `Option` fields; `d.get(k, default)` becomes `Option.getD`.
* Python sets are modelled by lists, used only through membership.
* Timestamps (`datetime` values) are modelled as integer seconds; a
  `timedelta` of `n` days is `n * 86400` seconds and of `n` weeks is
  `n * 7 * 86400` seconds.
* Exceptions are modelled with `Except`; the free-form summary strings
  produced by the code are not modelled (no claim mentions them).
-/

/-- Python's built-in `round` on an exact rational: round half to even. -/
def pythonRound (x : ℚ) : ℤ :=
  if x - ⌊x⌋ < 1/2 then ⌊x⌋
  else if 1/2 < x - ⌊x⌋ then ⌊x⌋ + 1
  else if ⌊x⌋ % 2 = 0 then ⌊x⌋ else ⌊x⌋ + 1

/-! ## `backend/recommender.py` : candidates, filtering, weighted sampling -/

/-- A candidate restaurant, as the dictionary fields the selection logic reads:
`place.get("id", "")`, `place.get("rating", 4.0)`, `place.get("userRatingCount", 0)`.
Further keys of the Python dict (name, location, …) are never read by the
functions under verification. -/
structure Place where
  id : Option String
  rating : Option ℚ
  userRatingCount : Option ℤ
deriving DecidableEq, Inhabited

/-- The retention test of `filter_candidates` (`recommender.py` lines 132-154),
one candidate at a time.  `travelInfo pid = none` models "no dict entry for
`pid`", `some none` models an entry whose `travel_time_minutes` is `null`. -/
def keepCandidate (visited_ids recent_ids : List String) (min_reviews : ℤ)
    (max_travel_minutes : ℤ) (travelInfo : String → Option (Option ℤ))
    (place : Place) : Bool :=
  let place_id := place.id.getD ""
  if place_id ∈ visited_ids then false
  else if place_id ∈ recent_ids then false
  else if place.userRatingCount.getD 0 < min_reviews then false
  else
    match travelInfo place_id with
    | some (some travel_mins) =>
        if max_travel_minutes < travel_mins then false else true
    | _ => true

/-- `filter_candidates` (`recommender.py` lines 108-160).  The Python default
`travel_info=None` with `travel_info = travel_info or {}` is modelled by the
`Option` parameter defaulting to the empty mapping. -/
def filter_candidates (places : List Place) (visited_ids recent_ids : List String)
    (min_reviews : ℤ) (max_travel_minutes : ℤ)
    (travel_info : Option (String → Option (Option ℤ))) : List Place :=
  let ti := travel_info.getD (fun _ => none)
  places.filter (keepCandidate visited_ids recent_ids min_reviews max_travel_minutes ti)

/-- Cumulative sums, as `itertools.accumulate` over the weight list. -/
def cumSum (l : List ℚ) : List ℚ :=
  (l.scanl (· + ·) 0).tail

/-- `bisect.bisect_right(a, x, 0, hi)` as used by `random.choices`: on the
nondecreasing cumulative-weight lists arising here (weights are squares,
hence nonnegative) the binary search returns the number of entries `≤ x`,
clamped to `hi`. -/
def bisectRightSorted (a : List ℚ) (x : ℚ) (hi : ℕ) : ℕ :=
  min hi (a.takeWhile (fun c => decide (c ≤ x))).length

/-- `random.choices(population, weights=weights, k=1)[0]` (CPython ≥ 3.9):
raises `ValueError` when the total weight is not positive, otherwise picks
`population[bisect_right(cum_weights, u * total, 0, len(population) - 1)]`
where `u = random()` is the uniform draw. -/
def pyChoicesOne (population : List ℕ) (weights : List ℚ) (u : ℚ) :
    Except String ℕ :=
  let cum := cumSum weights
  let total := cum.getLastD 0
  if total ≤ 0 then Except.error "Total of weights must be greater than zero"
  else Except.ok (population.getD (bisectRightSorted cum (u * total) (population.length - 1)) 0)

/-- The selection loop of `weighted_random_pick` (`recommender.py` lines
181-191): `k` iterations remain, `i` indexes the stream `u` of uniform draws,
`remaining` holds the not-yet-chosen candidate indices and `remWeights` their
weights, `selected` accumulates the picks. -/
def wrpLoop (candidates : List Place) (u : ℕ → ℚ) :
    ℕ → ℕ → List ℕ → List ℚ → List Place → Except String (List Place)
  | 0, _, _, _, selected => Except.ok selected
  | Nat.succ k, i, remaining, remWeights, selected =>
    if remaining.isEmpty then Except.ok selected
    else
      match pyChoicesOne remaining remWeights (u i) with
      | Except.error e => Except.error e
      | Except.ok chosen_idx =>
        let pos := remaining.indexOf chosen_idx
        wrpLoop candidates u k (i + 1) (remaining.eraseIdx pos)
          (remWeights.eraseIdx pos)
          (selected ++ [candidates.getD chosen_idx default])

/-- `weighted_random_pick` (`recommender.py` lines 163-192).  The stream
`u : ℕ → ℚ` supplies the successive values of `random.random()` consumed by
`random.choices`. -/
def weighted_random_pick (candidates : List Place) (count : ℕ) (u : ℕ → ℚ) :
    Except String (List Place) :=
  if candidates.length ≤ count then Except.ok candidates
  else
    wrpLoop candidates u count 0 (List.range candidates.length)
      (candidates.map (fun c => (c.rating.getD 4) ^ 2)) []

/-! ## `backend/routes_client.py` : travel-time estimation and cache -/

/-- Failure modes of the travel subsystem: a `requests` HTTP error or timeout
from the routing oracle (`resp.raise_for_status()` / `timeout=30`), or a
`ValueError` from `datetime.fromisoformat` on an unparseable `cached_at`. -/
inductive TravelErr where
  | httpErr : TravelErr
  | parseErr : TravelErr
deriving DecidableEq

/-- One element of the `routes` array of a Routes API response:
`int(route.get("duration", "0s").rstrip("s"))` seconds of driving and
`route.get("distanceMeters", 0)` metres of road distance. -/
structure Route where
  durationS : ℤ
  distanceMeters : ℤ
deriving DecidableEq

/-- The dictionary returned by `compute_travel_time`: an integer number of
minutes and an optional fare (the free-form `travel_summary` string is not
modelled). -/
structure TravelResult where
  travel_time_minutes : ℤ
  travel_cost_yen : Option ℤ
deriving DecidableEq

/-- `TRANSIT_MULTIPLIER` (`routes_client.py` line 22). -/
def TRANSIT_MULTIPLIER : ℚ := 3/2

/-- The fare block of `compute_travel_time` (`routes_client.py` lines 130-141):
piecewise schedule over the road distance in km, rounded to an integer per
branch and then to a multiple of ten. -/
def fareEstimate (distance_km_road : ℚ) : ℤ :=
  pythonRound (((if distance_km_road ≤ 5 then (180 : ℤ)
    else if distance_km_road ≤ 15 then pythonRound (150 + distance_km_road * 15)
    else if distance_km_road ≤ 30 then pythonRound (200 + distance_km_road * 12)
    else pythonRound (250 + distance_km_road * 10)) : ℚ) / 10) * 10

/-- `compute_travel_time` (`routes_client.py` lines 60-147).  The haversine
distance `_haversine_km(origin, dest)` computed on line 75 is passed in as
`distance_km` (the geo component is transcendental and enters the control flow
only through this value); the routing oracle's response — an HTTP failure or
the `routes` list of the response body — is passed in as `oracle`, which the
walking branch never examines. -/
def compute_travel_time (distance_km : ℚ) (oracle : Except TravelErr (List Route)) :
    Except TravelErr TravelResult :=
  if distance_km ≤ 3/2 then
    let walk_minutes := pythonRound (distance_km / (8/100))
    Except.ok ⟨walk_minutes, some 0⟩
  else
    match oracle with
    | Except.error e => Except.error e
    | Except.ok [] =>
      let est_minutes := pythonRound (distance_km * 3)
      Except.ok ⟨est_minutes, none⟩
    | Except.ok (route :: _) =>
      let transit_minutes := pythonRound ((route.durationS : ℚ) / 60 * TRANSIT_MULTIPLIER)
      let distance_km_road := (route.distanceMeters : ℚ) / 1000
      Except.ok ⟨transit_minutes, some (fareEstimate distance_km_road)⟩

/-- The `cached_at` field of a persisted cache entry, after the two steps the
code applies to it: `entry.get("cached_at", "")` (absent or empty string) and
`datetime.fromisoformat` (parse failure, or a timestamp). -/
inductive CachedAt where
  | absent : CachedAt
  | unparseable : CachedAt
  | at (t : ℤ) : CachedAt
deriving DecidableEq

/-- A persisted travel-cache entry: `travel_time_minutes` may be `null`
(retry-on-null policy), `cached_at` as above. -/
structure CacheEntry where
  travel_time_minutes : Option ℤ
  travel_cost_yen : Option ℤ
  cached_at : CachedAt
deriving DecidableEq

/-- `_is_cache_valid` (`routes_client.py` lines 40-46): `False` on a missing or
empty `cached_at`, a raised `ValueError` on an unparseable one, otherwise
`now - cached_time < timedelta(days=expiry_days)`. -/
def is_cache_valid (entry : CacheEntry) (expiry_days : ℤ) (now : ℤ) :
    Except TravelErr Bool :=
  match entry.cached_at with
  | CachedAt.absent => Except.ok false
  | CachedAt.unparseable => Except.error TravelErr.parseErr
  | CachedAt.at t => Except.ok (decide (now - t < expiry_days * 86400))

/-- The condition under which `get_travel_info` serves the cached entry
(`routes_client.py` lines 164-165): `_is_cache_valid(entry, expiry)` and
`entry.get("travel_time_minutes") is not None`. -/
def cacheUsable (entry : CacheEntry) (expiry_days : ℤ) (now : ℤ) : Prop :=
  is_cache_valid entry expiry_days now = Except.ok true ∧
    entry.travel_time_minutes ≠ none

/-- `get_travel_info` (`routes_client.py` lines 150-179) as a state-passing
function over the persisted cache mapping.  `compute` stands for the outcome
`compute_travel_time` would produce on this origin/destination pair; it is
consulted only on a miss.  The returned pair is (result raised/returned,
cache file contents after the call). -/
def get_travel_info (place_id : String) (cache : String → Option CacheEntry)
    (now : ℤ) (cache_expiry_days : ℤ) (compute : Except TravelErr TravelResult) :
    Except TravelErr CacheEntry × (String → Option CacheEntry) :=
  match cache place_id with
  | some entry =>
    match is_cache_valid entry cache_expiry_days now with
    | Except.error e => (Except.error e, cache)
    | Except.ok valid =>
      if valid ∧ entry.travel_time_minutes ≠ none then (Except.ok entry, cache)
      else
        match compute with
        | Except.error e => (Except.error e, cache)
        | Except.ok result =>
          let newEntry : CacheEntry :=
            ⟨some result.travel_time_minutes, result.travel_cost_yen, CachedAt.at now⟩
          (Except.ok newEntry, fun p => if p = place_id then some newEntry else cache p)
  | none =>
    match compute with
    | Except.error e => (Except.error e, cache)
    | Except.ok result =>
      let newEntry : CacheEntry :=
        ⟨some result.travel_time_minutes, result.travel_cost_yen, CachedAt.at now⟩
      (Except.ok newEntry, fun p => if p = place_id then some newEntry else cache p)

/-! ## `backend/recommender.py` / `backend/site_generator.py` : history stores -/

/-- One element of the persisted `weeks` list of `history.json`:
`generated_at` (an ISO8601 timestamp, modelled as seconds) and the
`place_id`s of its `restaurants` list. -/
structure WeekRecord where
  generated_at : ℤ
  restaurants : List String
deriving DecidableEq

/-- `load_recent_history` (`recommender.py` lines 33-48): collect the ids of
every record dated within the trailing `weeks * 7` days of `now`.  Python
accumulates into a set; the list produced here is used only through
membership. -/
def load_recent_history (weeksData : List WeekRecord) (now : ℤ) (weeks : ℤ) :
    List String :=
  let cutoff := now - weeks * 7 * 86400
  weeksData.foldl
    (fun recent_ids w =>
      if cutoff ≤ w.generated_at then recent_ids ++ w.restaurants else recent_ids)
    []

/-- `update_archive` (`site_generator.py` lines 36-53) on the
`archive["weeks"]` list: `insert(0, current_data)` then truncate to the first
52 entries.  Entries are opaque here (whole `current_data` dictionaries). -/
def update_archive {α : Type} (archive_weeks : List α) (current_data : α) : List α :=
  (current_data :: archive_weeks).take 52

/-- `update_history` (`site_generator.py` lines 56-81) on the
`history["weeks"]` list: `insert(0, ...)` of the trimmed weekly record, with
no truncation.  The trimming of each restaurant dict to
`{place_id, name, rating}` does not affect the list structure, so entries are
opaque here as well. -/
def update_history {α : Type} (history_weeks : List α) (new_record : α) : List α :=
  new_record :: history_weeks

/-! ## Spec-side definitions used to compare against the code (claim C3) -/

/-- Modelled from the spec (§4.2): the exact piecewise-linear fare schedule
over the road distance in km, before any rounding. -/
def specFareSchedule (r : ℚ) : ℚ :=
  if r ≤ 5 then 180
  else if r ≤ 15 then 150 + 15 * r
  else if r ≤ 30 then 200 + 12 * r
  else 250 + 10 * r

/-- Claim C3's reading of "the piecewise schedule rounded to the nearest 10":
a single rounding of the schedule value to a multiple of ten. -/
def specFareNearest10 (r : ℚ) : ℤ :=
  pythonRound (specFareSchedule r / 10) * 10

/-! ## Helper lemmas about `pythonRound` -/

lemma pythonRound_of_floor (x : ℚ) (f : ℤ) (hf : ⌊x⌋ = f) :
    pythonRound x =
      if x - f < 1/2 then f
      else if 1/2 < x - f then f + 1
      else if f % 2 = 0 then f else f + 1 := by
  unfold pythonRound
  rw [hf]

lemma pythonRound_eq_of_lt_half (x : ℚ) (n : ℤ) (hlo : (n : ℚ) ≤ x)
    (hhi : x < (n : ℚ) + 1/2) : pythonRound x = n := by
  rw [pythonRound_of_floor x n (Int.floor_eq_iff.mpr ⟨hlo, by linarith⟩)]
  rw [if_pos (by linarith)]

lemma pythonRound_eq_of_gt_half (x : ℚ) (n : ℤ) (hlo : (n : ℚ) - 1/2 < x)
    (hhi : x ≤ (n : ℚ)) : pythonRound x = n := by
  rcases eq_or_lt_of_le hhi with heq | hlt
  · subst heq
    rw [pythonRound_of_floor _ n (Int.floor_intCast n)]
    rw [if_pos (by norm_num)]
  · have hf : ⌊x⌋ = n - 1 := by
      rw [Int.floor_eq_iff]
      constructor
      · push_cast; linarith
      · push_cast; linarith
    rw [pythonRound_of_floor x (n - 1) hf]
    rw [if_neg (by push_cast; linarith), if_pos (by push_cast; linarith)]
    omega

lemma pythonRound_half_even (n : ℤ) (he : n % 2 = 0) :
    pythonRound ((n : ℚ) + 1/2) = n := by
  have hf : ⌊(n : ℚ) + 1/2⌋ = n := by
    rw [Int.floor_eq_iff]
    constructor
    · linarith
    · push_cast; linarith
  rw [pythonRound_of_floor _ n hf]
  rw [if_neg (by norm_num), if_neg (by norm_num), if_pos he]

lemma pythonRound_half_odd (n : ℤ) (ho : n % 2 = 1) :
    pythonRound ((n : ℚ) + 1/2) = n + 1 := by
  have hf : ⌊(n : ℚ) + 1/2⌋ = n := by
    rw [Int.floor_eq_iff]
    constructor
    · linarith
    · push_cast; linarith
  rw [pythonRound_of_floor _ n hf]
  rw [if_neg (by norm_num), if_neg (by norm_num), if_neg (by omega)]

lemma pythonRound_intCast (n : ℤ) : pythonRound (n : ℚ) = n :=
  pythonRound_eq_of_lt_half _ n le_rfl (by linarith)

lemma floor_le_pythonRound (x : ℚ) : ⌊x⌋ ≤ pythonRound x := by
  unfold pythonRound
  split_ifs <;> omega

lemma le_pythonRound_of_le (c : ℤ) (x : ℚ) (h : (c : ℚ) ≤ x) :
    c ≤ pythonRound x :=
  le_trans (Int.le_floor.mpr h) (floor_le_pythonRound x)

/-! ## Helper lemmas about the candidate filter -/

lemma keepCandidate_eq_true_iff (visited_ids recent_ids : List String)
    (min_reviews max_travel_minutes : ℤ) (ti : String → Option (Option ℤ))
    (p : Place) :
    keepCandidate visited_ids recent_ids min_reviews max_travel_minutes ti p = true ↔
      p.id.getD "" ∉ visited_ids ∧ p.id.getD "" ∉ recent_ids ∧
        min_reviews ≤ p.userRatingCount.getD 0 ∧
        (ti (p.id.getD "") = none ∨ ti (p.id.getD "") = some none ∨
          ∃ t, ti (p.id.getD "") = some (some t) ∧ t ≤ max_travel_minutes) := by
  unfold keepCandidate
  rcases hti : ti (p.id.getD "") with _ | _ | t
  · simp only [hti]
    split_ifs with h1 h2 h3 <;> simp_all <;> omega
  · simp only [hti]
    split_ifs with h1 h2 h3 <;> simp_all <;> omega
  · simp only [hti]
    split_ifs with h1 h2 h3 h4 <;> simp_all <;> omega

/-! ## Helper lemmas about the weighted sampler -/

lemma map_getD_range {α : Type} (l : List α) (d : α) :
    (List.range l.length).map (fun j => l.getD j d) = l := by
  apply List.ext_getElem
  · simp
  · intro n h1 h2
    simp only [List.getElem_map, List.getElem_range]
    exact List.getD_eq_getElem l d h2

lemma pyChoicesOne_ok_mem (population : List ℕ) (weights : List ℚ) (u : ℚ)
    (j : ℕ) (hpop : population ≠ [])
    (h : pyChoicesOne population weights u = Except.ok j) : j ∈ population := by
  simp only [pyChoicesOne] at h
  split_ifs at h with htot
  have hlt : bisectRightSorted (cumSum weights)
      (u * (cumSum weights).getLastD 0) (population.length - 1) < population.length := by
    have h1 : bisectRightSorted (cumSum weights)
        (u * (cumSum weights).getLastD 0) (population.length - 1) ≤
          population.length - 1 := Nat.min_le_left _ _
    have h2 : 0 < population.length := List.length_pos.mpr hpop
    omega
  injection h with h2
  rw [← h2, List.getD_eq_getElem population 0 hlt]
  exact List.getElem_mem hlt

/-! ## Helper lemmas about the fare schedule -/

lemma fareEstimate_eq_round_schedule (r : ℚ) :
    fareEstimate r = pythonRound ((pythonRound (specFareSchedule r) : ℚ) / 10) * 10 := by
  unfold fareEstimate specFareSchedule
  split_ifs with h1 h2 h3
  · rw [show ((180 : ℚ)) = ((180 : ℤ) : ℚ) by norm_num, pythonRound_intCast]
  · rw [show (150 : ℚ) + 15 * r = 150 + r * 15 by ring]
  · rw [show (200 : ℚ) + 12 * r = 200 + r * 12 by ring]
  · rw [show (250 : ℚ) + 10 * r = 250 + r * 10 by ring]

lemma fareEstimate_ge_180 (r : ℚ) : (180 : ℤ) ≤ fareEstimate r := by
  unfold fareEstimate
  have h0 : (180 : ℤ) ≤ (if r ≤ 5 then (180 : ℤ)
      else if r ≤ 15 then pythonRound (150 + r * 15)
      else if r ≤ 30 then pythonRound (200 + r * 12)
      else pythonRound (250 + r * 10)) := by
    split_ifs with h1 h2 h3
    · exact le_refl _
    · exact le_pythonRound_of_le 180 _ (by push_cast; linarith)
    · exact le_pythonRound_of_le 180 _ (by push_cast; linarith)
    · exact le_pythonRound_of_le 180 _ (by push_cast; linarith)
  have h18 : (18 : ℤ) ≤ pythonRound (((if r ≤ 5 then (180 : ℤ)
      else if r ≤ 15 then pythonRound (150 + r * 15)
      else if r ≤ 30 then pythonRound (200 + r * 12)
      else pythonRound (250 + r * 10)) : ℚ) / 10) := by
    apply le_pythonRound_of_le
    have hc : ((180 : ℤ) : ℚ) ≤ ((if r ≤ 5 then (180 : ℤ)
        else if r ≤ 15 then pythonRound (150 + r * 15)
        else if r ≤ 30 then pythonRound (200 + r * 12)
        else pythonRound (250 + r * 10)) : ℚ) := by exact_mod_cast h0
    push_cast at hc ⊢
    linarith
  omega

/-! ## Helper lemma about the recent-history fold -/

lemma mem_load_recent_foldl (cutoff : ℤ) (ws : List WeekRecord) :
    ∀ (acc : List String) (s : String),
      s ∈ ws.foldl (fun recent_ids w =>
          if cutoff ≤ w.generated_at then recent_ids ++ w.restaurants
          else recent_ids) acc ↔
        s ∈ acc ∨ ∃ w ∈ ws, cutoff ≤ w.generated_at ∧ s ∈ w.restaurants := by
  induction ws with
  | nil => intro acc s; simp
  | cons w ws ih =>
    intro acc s
    rw [List.foldl_cons, ih]
    by_cases h : cutoff ≤ w.generated_at
    · rw [if_pos h]
      simp only [List.mem_append, List.mem_cons]
      constructor
      · rintro (⟨ha | hw⟩ | ⟨w', hw', hc, hs⟩)
        · exact Or.inl ha
        · exact Or.inr ⟨w, Or.inl rfl, h, hw⟩
        · exact Or.inr ⟨w', Or.inr hw', hc, hs⟩
      · rintro (ha | ⟨w', hw' | hw', hc, hs⟩)
        · exact Or.inl (Or.inl ha)
        · subst hw'; exact Or.inl (Or.inr hs)
        · exact Or.inr ⟨w', hw', hc, hs⟩
    · rw [if_neg h]
      simp only [List.mem_cons]
      constructor
      · rintro (ha | ⟨w', hw', hc, hs⟩)
        · exact Or.inl ha
        · exact Or.inr ⟨w', Or.inr hw', hc, hs⟩
      · rintro (ha | ⟨w', hw' | hw', hc, hs⟩)
        · exact Or.inl ha
        · subst hw'; exact absurd hc h
        · exact Or.inr ⟨w', hw', hc, hs⟩

lemma wrpLoop_ok_spec (candidates : List Place) (u : ℕ → ℚ) :
    ∀ (k i : ℕ) (remaining : List ℕ) (remWeights : List ℚ) (selIdxs : List ℕ)
      (out : List Place),
      remWeights.length = remaining.length →
      remaining.Nodup →
      (∀ j ∈ remaining, j < candidates.length) →
      selIdxs.Nodup →
      (∀ j ∈ selIdxs, j < candidates.length) →
      (∀ j ∈ selIdxs, j ∉ remaining) →
      wrpLoop candidates u k i remaining remWeights
          (selIdxs.map (fun j => candidates.getD j default)) = Except.ok out →
      ∃ idxs : List ℕ, idxs.Nodup ∧ (∀ j ∈ idxs, j < candidates.length) ∧
        out = idxs.map (fun j => candidates.getD j default) ∧
        out.length = selIdxs.length + min k remaining.length := by
  intro k
  induction k with
  | zero =>
    intro i remaining remWeights selIdxs out _ _ _ hnodup hbound _ hrun
    rw [wrpLoop, Except.ok.injEq] at hrun
    exact ⟨selIdxs, hnodup, hbound, hrun.symm, by simp [← hrun]⟩
  | succ k ih =>
    intro i remaining remWeights selIdxs out hlen hnodupR hboundR hnodup hbound hdisj hrun
    rw [wrpLoop] at hrun
    by_cases hemp : remaining.isEmpty
    · rw [if_pos hemp, Except.ok.injEq] at hrun
      refine ⟨selIdxs, hnodup, hbound, hrun.symm, ?_⟩
      rw [List.isEmpty_iff] at hemp
      simp [← hrun, hemp]
    · rw [if_neg hemp] at hrun
      have hne : remaining ≠ [] := by
        intro hcon; rw [hcon] at hemp; exact hemp rfl
      rcases hch : pyChoicesOne remaining remWeights (u i) with e | chosen
      · rw [hch] at hrun; simp at hrun
      · simp only [hch] at hrun
        have hmem : chosen ∈ remaining :=
          pyChoicesOne_ok_mem remaining remWeights (u i) chosen hne hch
        have hposlt : remaining.indexOf chosen < remaining.length :=
          List.indexOf_lt_length.mpr hmem
        have herase : remaining.eraseIdx (remaining.indexOf chosen) =
            remaining.erase chosen := List.eraseIdx_indexOf_eq_erase chosen remaining
        rw [herase] at hrun
        have hsel : (selIdxs.map (fun j => candidates.getD j default)) ++
            [candidates.getD chosen default] =
            (selIdxs ++ [chosen]).map (fun j => candidates.getD j default) := by
          simp
        rw [hsel] at hrun
        have hchnot : chosen ∉ selIdxs := fun hc => hdisj chosen hc hmem
        have hres := ih (i + 1) (remaining.erase chosen)
          (remWeights.eraseIdx (remaining.indexOf chosen)) (selIdxs ++ [chosen]) out
          (by
            rw [List.length_eraseIdx, if_pos (by omega),
              List.length_erase_of_mem hmem, hlen])
          (hnodupR.erase chosen)
          (fun j hj => hboundR j (List.erase_subset _ _ hj))
          (by simp [List.nodup_append, hchnot, hnodup])
          (by
            intro j hj
            rcases List.mem_append.mp hj with hj1 | hj2
            · exact hbound j hj1
            · rw [List.mem_singleton.mp hj2]
              exact hboundR chosen hmem)
          (by
            intro j hj hjerase
            rcases List.mem_append.mp hj with hj1 | hj2
            · exact hdisj j hj1 (List.erase_subset _ _ hjerase)
            · rw [List.mem_singleton.mp hj2] at hjerase
              exact ((hnodupR.mem_erase_iff.mp hjerase).1 rfl).elim)
          hrun
        rcases hres with ⟨idxs, hn, hb, hout, hlen2⟩
        refine ⟨idxs, hn, hb, hout, ?_⟩
        rw [hlen2]
        have hrl : 0 < remaining.length := by omega
        rw [List.length_erase_of_mem hmem]
        simp only [List.length_append, List.length_singleton]
        omega

/-! ## Claim theorems -/

/-- C1: `filter_candidates` retains a candidate iff its id is not visited, not
recently recommended, its review count is at least `min_reviews`, and its
travel-info entry is absent, null, or within `max_travel_minutes`; any
candidate whose id is visited or recent is absent from the output for all
other parameter values, and the relative input order is preserved among
retained candidates. -/
theorem filter_candidates_spec (places : List Place)
    (visited_ids recent_ids : List String) (min_reviews max_travel_minutes : ℤ)
    (travel_info : Option (String → Option (Option ℤ))) :
    (∀ p : Place,
        p ∈ filter_candidates places visited_ids recent_ids min_reviews
            max_travel_minutes travel_info ↔
          p ∈ places ∧ p.id.getD "" ∉ visited_ids ∧ p.id.getD "" ∉ recent_ids ∧
            min_reviews ≤ p.userRatingCount.getD 0 ∧
            (travel_info.getD (fun _ => none) (p.id.getD "") = none ∨
              travel_info.getD (fun _ => none) (p.id.getD "") = some none ∨
              ∃ t, travel_info.getD (fun _ => none) (p.id.getD "") = some (some t) ∧
                t ≤ max_travel_minutes)) ∧
    (∀ p : Place, p.id.getD "" ∈ visited_ids ∨ p.id.getD "" ∈ recent_ids →
        p ∉ filter_candidates places visited_ids recent_ids min_reviews
            max_travel_minutes travel_info) ∧
    (filter_candidates places visited_ids recent_ids min_reviews
        max_travel_minutes travel_info).Sublist places := by
  have hmem : ∀ p : Place,
      p ∈ filter_candidates places visited_ids recent_ids min_reviews
          max_travel_minutes travel_info ↔
        p ∈ places ∧ p.id.getD "" ∉ visited_ids ∧ p.id.getD "" ∉ recent_ids ∧
          min_reviews ≤ p.userRatingCount.getD 0 ∧
          (travel_info.getD (fun _ => none) (p.id.getD "") = none ∨
            travel_info.getD (fun _ => none) (p.id.getD "") = some none ∨
            ∃ t, travel_info.getD (fun _ => none) (p.id.getD "") = some (some t) ∧
              t ≤ max_travel_minutes) := by
    intro p
    unfold filter_candidates
    rw [List.mem_filter, keepCandidate_eq_true_iff]
  refine ⟨hmem, ?_, List.filter_sublist _⟩
  intro p hpid hpin
  rcases (hmem p).mp hpin with ⟨_, hv, hr, _, _⟩
  rcases hpid with h | h
  · exact hv h
  · exact hr h

/-- C1 witness: a concrete already-visited candidate is excluded. -/
theorem filter_candidates_spec_witness :
    (⟨some "v", none, some 100⟩ : Place) ∉
      filter_candidates [⟨some "v", none, some 100⟩] ["v"] [] 0 90 none :=
  (filter_candidates_spec [⟨some "v", none, some 100⟩] ["v"] [] 0 90 none).2.1
    ⟨some "v", none, some 100⟩ (Or.inl (by simp))

/-- C8: `load_recent_history` returns exactly the union of the ids of
records whose timestamp is at least `now - weeks*7` days; in particular the
ids of a record dated 5 weeks ago are excluded when `weeks = 4`. -/
theorem load_recent_history_spec :
    (∀ (weeksData : List WeekRecord) (now weeks : ℤ) (s : String),
        s ∈ load_recent_history weeksData now weeks ↔
          ∃ w ∈ weeksData, now - weeks * 7 * 86400 ≤ w.generated_at ∧
            s ∈ w.restaurants) ∧
    (∀ (now : ℤ) (ids : List String) (s : String),
        s ∉ load_recent_history [⟨now - 5 * 7 * 86400, ids⟩] now 4) := by
  have hmem : ∀ (weeksData : List WeekRecord) (now weeks : ℤ) (s : String),
      s ∈ load_recent_history weeksData now weeks ↔
        ∃ w ∈ weeksData, now - weeks * 7 * 86400 ≤ w.generated_at ∧
          s ∈ w.restaurants := by
    intro weeksData now weeks s
    unfold load_recent_history
    rw [mem_load_recent_foldl]
    simp
  refine ⟨hmem, ?_⟩
  intro now ids s hs
  rcases (hmem _ now 4 s).mp hs with ⟨w, hw, hc, _⟩
  rw [List.mem_singleton] at hw
  subst hw
  simp only at hc
  omega

/-- C8 witness: a concrete 5-week-old record's id is excluded at `weeks = 4`. -/
theorem load_recent_history_spec_witness :
    "x" ∉ load_recent_history [⟨0 - 5 * 7 * 86400, ["x"]⟩] 0 4 :=
  load_recent_history_spec.2 0 ["x"] "x"

/-- C9: `update_archive` inserts the new record at the front and keeps the
most recent at most 52 records (the oldest beyond the cap evicted), so its
output length is `min (len + 1) 52 ≤ 52` for every prior state;
`update_history` inserts at the front with no cap, so its length always
grows by one. -/
theorem record_week_spec :
    (∀ (α : Type) (archive_weeks : List α) (current_data : α),
        update_archive archive_weeks current_data =
          current_data :: archive_weeks.take 51) ∧
    (∀ (α : Type) (archive_weeks : List α) (current_data : α),
        (update_archive archive_weeks current_data).length =
          min (archive_weeks.length + 1) 52) ∧
    (∀ (α : Type) (archive_weeks : List α) (current_data : α),
        (update_archive archive_weeks current_data).length ≤ 52) ∧
    (∀ (α : Type) (history_weeks : List α) (new_record : α),
        update_history history_weeks new_record = new_record :: history_weeks) ∧
    (∀ (α : Type) (history_weeks : List α) (new_record : α),
        (update_history history_weeks new_record).length =
          history_weeks.length + 1) := by
  refine ⟨?_, ?_, ?_, ?_, ?_⟩
  · intro α archive cur
    unfold update_archive
    rw [List.take_succ_cons]
  · intro α archive cur
    unfold update_archive
    rw [List.length_take]
    simp only [List.length_cons]
    omega
  · intro α archive cur
    unfold update_archive
    rw [List.length_take]
    omega
  · intro α hist rec
    rfl
  · intro α hist rec
    rfl

/-- C5: for haversine distance at most 1.5 km the estimate is the walking
formula `round(d / 0.08)` with cost 0, independent of the routing oracle (no
call is made); for distance above 1.5 km the produced estimate never has cost
0: the fare schedule yields at least 180 and the no-route fallback yields a
null cost. -/
theorem walking_threshold_spec :
    (∀ (d : ℚ) (oracle : Except TravelErr (List Route)), d ≤ 3/2 →
        compute_travel_time d oracle =
          Except.ok ⟨pythonRound (d / (8/100)), some 0⟩) ∧
    (∀ (d : ℚ) (oracle : Except TravelErr (List Route)) (r : TravelResult),
        3/2 < d → compute_travel_time d oracle = Except.ok r →
          r.travel_cost_yen ≠ some 0 ∧
            (r.travel_cost_yen = none ∨
              ∃ k, r.travel_cost_yen = some k ∧ 180 ≤ k)) := by
  constructor
  · intro d oracle hd
    unfold compute_travel_time
    rw [if_pos hd]
  · intro d oracle r hd hrun
    unfold compute_travel_time at hrun
    rw [if_neg (not_le.mpr hd)] at hrun
    rcases oracle with e | routes
    · simp at hrun
    · rcases routes with _ | ⟨route, rest⟩
      · injection hrun with h
        rw [← h]
        refine ⟨by simp, Or.inl rfl⟩
      · injection hrun with h
        rw [← h]
        have h180 := fareEstimate_ge_180 ((route.distanceMeters : ℚ) / 1000)
        constructor
        · intro hc
          rw [Option.some.injEq] at hc
          omega
        · exact Or.inr ⟨_, rfl, h180⟩

/-- C5 witness: the walking branch at distance 1 km and the oracle branch at
distance 3 km with an empty route list. -/
theorem walking_threshold_spec_witness :
    compute_travel_time 1 (Except.ok []) =
      Except.ok ⟨pythonRound (1 / (8/100)), some 0⟩ ∧
    (⟨9, none⟩ : TravelResult).travel_cost_yen ≠ some 0 := by
  have heval : compute_travel_time 3 (Except.ok []) = Except.ok ⟨9, none⟩ := by
    unfold compute_travel_time
    rw [if_neg (by norm_num)]
    show Except.ok (⟨pythonRound ((3 : ℚ) * 3), none⟩ : TravelResult) = _
    rw [show (3 : ℚ) * 3 = ((9 : ℤ) : ℚ) by norm_num, pythonRound_intCast]
  exact ⟨walking_threshold_spec.1 1 (Except.ok []) (by norm_num),
    (walking_threshold_spec.2 3 (Except.ok []) ⟨9, none⟩ (by norm_num) heval).1⟩

/-- C7 (amended): for a destination whose haversine distance is exactly
1.0 km the estimate is 12 minutes (Python's `round(1.0/0.08)` is 12, by
round-half-to-even on 12.5) at cost 0, for every oracle value. -/
theorem walking_scenario_spec (oracle : Except TravelErr (List Route)) :
    compute_travel_time 1 oracle = Except.ok ⟨12, some 0⟩ := by
  unfold compute_travel_time
  rw [if_pos (by norm_num)]
  show Except.ok (⟨pythonRound ((1 : ℚ) / (8/100)), some 0⟩ : TravelResult) = _
  rw [show (1 : ℚ) / (8/100) = ((12 : ℤ) : ℚ) + 1/2 by norm_num,
    pythonRound_half_even 12 (by norm_num)]

/-- C7 counterexample: at distance exactly 1.0 km the code returns 12
minutes, not the 13 minutes the claim states. -/
theorem walking_scenario_counterexample :
    compute_travel_time 1 (Except.ok []) = Except.ok ⟨12, some 0⟩ ∧
    (⟨12, some 0⟩ : TravelResult) ≠ ⟨13, some 0⟩ := by
  constructor
  · unfold compute_travel_time
    rw [if_pos (by norm_num)]
    show Except.ok (⟨pythonRound ((1 : ℚ) / (8/100)), some 0⟩ : TravelResult) = _
    rw [show (1 : ℚ) / (8/100) = ((12 : ℤ) : ℚ) + 1/2 by norm_num,
      pythonRound_half_even 12 (by norm_num)]
  · decide

/-- C3 (amended): with a usable route of driving duration `ds` seconds and
road distance `m` metres, the time is `round(ds/60 * 1.5)` and the fare is
the piecewise schedule value rounded to the nearest integer first
(`round(...)` inside each branch) and then to a multiple of ten — not a
single rounding of the exact schedule value to the nearest 10; the claim's
scenario (duration 1200 s, road distance 10 km → 30 minutes, 300 yen)
holds. -/
theorem compute_travel_time_route_spec (d : ℚ) (route : Route)
    (rest : List Route) (hd : 3/2 < d) :
    compute_travel_time d (Except.ok (route :: rest)) =
      Except.ok ⟨pythonRound ((route.durationS : ℚ) / 60 * TRANSIT_MULTIPLIER),
        some (pythonRound ((pythonRound (specFareSchedule
          ((route.distanceMeters : ℚ) / 1000)) : ℚ) / 10) * 10)⟩ ∧
    compute_travel_time d (Except.ok [⟨1200, 10000⟩]) =
      Except.ok ⟨30, some 300⟩ := by
  constructor
  · unfold compute_travel_time
    rw [if_neg (not_le.mpr hd)]
    show Except.ok (⟨pythonRound ((route.durationS : ℚ) / 60 * TRANSIT_MULTIPLIER),
      some (fareEstimate ((route.distanceMeters : ℚ) / 1000))⟩ : TravelResult) = _
    rw [fareEstimate_eq_round_schedule]
  · unfold compute_travel_time
    rw [if_neg (not_le.mpr hd)]
    show Except.ok (⟨pythonRound (((1200 : ℤ) : ℚ) / 60 * TRANSIT_MULTIPLIER),
      some (fareEstimate (((10000 : ℤ) : ℚ) / 1000))⟩ : TravelResult) = _
    have ht : pythonRound (((1200 : ℤ) : ℚ) / 60 * TRANSIT_MULTIPLIER) = 30 := by
      rw [show ((1200 : ℤ) : ℚ) / 60 * TRANSIT_MULTIPLIER = ((30 : ℤ) : ℚ) by
        unfold TRANSIT_MULTIPLIER; push_cast; norm_num, pythonRound_intCast]
    have hf : fareEstimate (((10000 : ℤ) : ℚ) / 1000) = 300 := by
      unfold fareEstimate
      rw [if_neg (by push_cast; norm_num), if_pos (by push_cast; norm_num)]
      rw [show (150 : ℚ) + ((10000 : ℤ) : ℚ) / 1000 * 15 = ((300 : ℤ) : ℚ) by
        push_cast; norm_num, pythonRound_intCast]
      rw [show ((300 : ℤ) : ℚ) / 10 = ((30 : ℤ) : ℚ) by push_cast; norm_num,
        pythonRound_intCast]
      norm_num
    rw [ht, hf]

/-- C3 witness: the amended theorem applied at distance 2 km with the
scenario route (1200 s, 10000 m). -/
theorem compute_travel_time_route_spec_witness :
    compute_travel_time 2 (Except.ok [⟨1200, 10000⟩]) =
      Except.ok ⟨30, some 300⟩ :=
  (compute_travel_time_route_spec 2 ⟨1200, 10000⟩ [] (by norm_num)).2

/-- C3 counterexample: at road distance 5.66 km (schedule value 234.9) the
code produces a fare of 240, while a single rounding of the schedule value
to the nearest 10 — the fare the claim states — gives 230. -/
theorem compute_travel_time_fare_counterexample :
    compute_travel_time 2 (Except.ok [⟨1200, 5660⟩]) =
      Except.ok ⟨30, some 240⟩ ∧
    specFareNearest10 (((5660 : ℤ) : ℚ) / 1000) = 230 ∧
    ((240 : ℤ) ≠ 230) := by
  refine ⟨?_, ?_, by decide⟩
  · unfold compute_travel_time
    rw [if_neg (by norm_num)]
    show Except.ok (⟨pythonRound (((1200 : ℤ) : ℚ) / 60 * TRANSIT_MULTIPLIER),
      some (fareEstimate (((5660 : ℤ) : ℚ) / 1000))⟩ : TravelResult) = _
    have ht : pythonRound (((1200 : ℤ) : ℚ) / 60 * TRANSIT_MULTIPLIER) = 30 := by
      rw [show ((1200 : ℤ) : ℚ) / 60 * TRANSIT_MULTIPLIER = ((30 : ℤ) : ℚ) by
        unfold TRANSIT_MULTIPLIER; push_cast; norm_num, pythonRound_intCast]
    have hf : fareEstimate (((5660 : ℤ) : ℚ) / 1000) = 240 := by
      unfold fareEstimate
      rw [if_neg (by push_cast; norm_num), if_pos (by push_cast; norm_num)]
      have h1 : pythonRound (150 + ((5660 : ℤ) : ℚ) / 1000 * 15) = 235 := by
        apply pythonRound_eq_of_gt_half
        · push_cast; norm_num
        · push_cast; norm_num
      rw [h1]
      rw [show ((235 : ℤ) : ℚ) / 10 = ((23 : ℤ) : ℚ) + 1/2 by push_cast; norm_num,
        pythonRound_half_odd 23 (by norm_num)]
      norm_num
    rw [ht, hf]
  · unfold specFareNearest10 specFareSchedule
    rw [if_neg (by push_cast; norm_num), if_pos (by push_cast; norm_num)]
    have h1 : pythonRound ((150 + 15 * (((5660 : ℤ) : ℚ) / 1000)) / 10) = 23 := by
      apply pythonRound_eq_of_lt_half
      · push_cast; norm_num
      · push_cast; norm_num
    rw [h1]
    norm_num


/-- C4: `get_travel_info` serves a cached entry (for every estimator outcome,
leaving the cache untouched) iff `cached_at` is present, parseable and
younger than `expiry_days` days and `travel_time_minutes` is non-null;
an entry usable at time `T` (with its timestamp in the past) is no longer
usable at `T + expiry + ε`; and a null-time entry is never usable whatever
its age. -/
theorem cache_validity_spec :
    (∀ (cache : String → Option CacheEntry) (place_id : String)
        (entry : CacheEntry) (now E : ℤ), cache place_id = some entry →
        ((∀ compute, get_travel_info place_id cache now E compute =
            (Except.ok entry, cache)) ↔
          ((∃ t, entry.cached_at = CachedAt.at t ∧ now - t < E * 86400) ∧
            entry.travel_time_minutes ≠ none))) ∧
    (∀ (entry : CacheEntry) (t T E ε : ℤ), entry.cached_at = CachedAt.at t →
        t ≤ T → 0 < ε → cacheUsable entry E T →
        ¬ cacheUsable entry E (T + E * 86400 + ε)) ∧
    (∀ (entry : CacheEntry) (E now : ℤ), entry.travel_time_minutes = none →
        ¬ cacheUsable entry E now) := by
  refine ⟨?_, ?_, ?_⟩
  · intro cache place_id entry now E hca
    constructor
    · intro hall
      have h1 := hall (Except.error TravelErr.httpErr)
      rcases hcat : entry.cached_at with _ | _ | t
      · exfalso
        unfold get_travel_info is_cache_valid at h1
        simp [hca, hcat] at h1
      · exfalso
        unfold get_travel_info is_cache_valid at h1
        simp [hca, hcat] at h1
      · by_cases hfresh : now - t < E * 86400
        · rcases httm : entry.travel_time_minutes with _ | v
          · exfalso
            unfold get_travel_info is_cache_valid at h1
            simp [hca, hcat, httm] at h1
          · exact ⟨⟨t, rfl, hfresh⟩, by simp [httm]⟩
        · exfalso
          unfold get_travel_info is_cache_valid at h1
          simp [hca, hcat, hfresh] at h1
    · rintro ⟨⟨t, hcat, hfresh⟩, httm⟩ compute
      unfold get_travel_info is_cache_valid
      simp [hca, hcat, hfresh, httm]
  · intro entry t T E ε hcat hle hε husable
    unfold cacheUsable at husable ⊢
    simp only [is_cache_valid, hcat] at husable ⊢
    rcases husable with ⟨hval, _⟩
    rw [Except.ok.injEq, decide_eq_true_eq] at hval
    intro hcon
    rcases hcon with ⟨hval2, _⟩
    rw [Except.ok.injEq, decide_eq_true_eq] at hval2
    omega
  · intro entry E now httm
    unfold cacheUsable
    intro hcon
    exact hcon.2 httm

/-- C4 witness: a fresh concrete entry is served for an erroring estimator;
the same entry is stale one second past its expiry; a null-time entry is
unusable. -/
theorem cache_validity_spec_witness :
    get_travel_info "x"
        (fun p => if p = "x" then some ⟨some 10, some 0, CachedAt.at 0⟩ else none)
        0 90 (Except.error TravelErr.httpErr) =
      (Except.ok ⟨some 10, some 0, CachedAt.at 0⟩,
        fun p => if p = "x" then some ⟨some 10, some 0, CachedAt.at 0⟩ else none) ∧
    ¬ cacheUsable ⟨some 10, some 0, CachedAt.at 0⟩ 90 (0 + 90 * 86400 + 1) ∧
    ¬ cacheUsable ⟨none, none, CachedAt.at 0⟩ 90 0 := by
  refine ⟨?_, ?_, ?_⟩
  · exact (cache_validity_spec.1
        (fun p => if p = "x" then some ⟨some 10, some 0, CachedAt.at 0⟩ else none)
        "x" ⟨some 10, some 0, CachedAt.at 0⟩ 0 90 (by simp)).mpr
      ⟨⟨0, rfl, by norm_num⟩, by simp⟩ (Except.error TravelErr.httpErr)
  · exact cache_validity_spec.2.1 ⟨some 10, some 0, CachedAt.at 0⟩ 0 0 90 1 rfl
      le_rfl one_pos
      ⟨by simp only [is_cache_valid]; rw [Except.ok.injEq, decide_eq_true_eq]; norm_num,
        by simp⟩
  · exact cache_validity_spec.2.2 ⟨none, none, CachedAt.at 0⟩ 90 0 rfl

/-- C10: when the estimator raises on a miss (no stored entry, a stale one,
or a stored null-time one), `get_travel_info` propagates the failure and the
persisted cache mapping is returned unchanged: no entry is written or
updated for the requested id. -/
theorem get_travel_info_error_spec (cache : String → Option CacheEntry)
    (place_id : String) (now E : ℤ) (e : TravelErr)
    (hmiss : ∀ entry, cache place_id = some entry →
      is_cache_valid entry E now = Except.ok false ∨
        (is_cache_valid entry E now = Except.ok true ∧
          entry.travel_time_minutes = none)) :
    get_travel_info place_id cache now E (Except.error e) =
      (Except.error e, cache) := by
  unfold get_travel_info
  rcases hc : cache place_id with _ | entry
  · simp [hc]
  · rcases hmiss entry hc with hval | ⟨hval, httm⟩
    · simp [hc, hval]
    · simp [hc, hval, httm]

/-- C10 witness: with an empty cache and an erroring estimator, the error
propagates and the cache mapping is returned as-is. -/
theorem get_travel_info_error_spec_witness :
    get_travel_info "y" (fun _ => none) 0 90 (Except.error TravelErr.httpErr) =
      (Except.error TravelErr.httpErr, fun _ => none) :=
  get_travel_info_error_spec (fun _ => none) "y" 0 90 TravelErr.httpErr
    (fun entry h => absurd h (by simp))

/-- C2 (amended): whenever `weighted_random_pick` returns a result (which it
fails to do only when every weight is zero and a weighted draw is reached),
the output has length `min (len candidates) count`, every element is drawn
from a distinct position of the input, and when `len candidates ≤ count` the
output is exactly the input in order. -/
theorem weighted_random_pick_spec (candidates : List Place) (count : ℕ)
    (u : ℕ → ℚ) (out : List Place)
    (h : weighted_random_pick candidates count u = Except.ok out) :
    out.length = min candidates.length count ∧
    (∃ idxs : List ℕ, idxs.Nodup ∧ (∀ j ∈ idxs, j < candidates.length) ∧
      out = idxs.map (fun j => candidates.getD j default)) ∧
    (candidates.length ≤ count → out = candidates) := by
  unfold weighted_random_pick at h
  split_ifs at h with hle
  · injection h with h2
    subst h2
    refine ⟨by rw [Nat.min_eq_left hle], ?_, fun _ => rfl⟩
    exact ⟨List.range candidates.length, List.nodup_range _,
      fun j hj => List.mem_range.mp hj, (map_getD_range candidates default).symm⟩
  · have hres := wrpLoop_ok_spec candidates u count 0
      (List.range candidates.length)
      (candidates.map (fun c => (c.rating.getD 4) ^ 2)) [] out
      (by rw [List.length_map, List.length_range])
      (List.nodup_range _)
      (fun j hj => List.mem_range.mp hj)
      List.nodup_nil
      (by intro j hj; cases hj)
      (by intro j hj; cases hj)
      h
    rcases hres with ⟨idxs, hn, hb, hout, hlen⟩
    refine ⟨?_, ⟨idxs, hn, hb, hout⟩, fun hc => absurd hc hle⟩
    simp only [List.length_nil, List.length_range, Nat.zero_add] at hlen
    rw [hlen, Nat.min_comm]

/-- C2 witness: a concrete three-candidate pool sampled down to two. -/
theorem weighted_random_pick_spec_witness :
    ∃ out : List Place,
      weighted_random_pick
        [⟨some "a", none, none⟩, ⟨some "b", none, none⟩, ⟨some "c", none, none⟩]
        2 (fun _ => 0) = Except.ok out ∧
      out.length = min 3 2 := by
  have heval : weighted_random_pick
      [⟨some "a", none, none⟩, ⟨some "b", none, none⟩, ⟨some "c", none, none⟩]
      2 (fun _ => 0) =
      Except.ok [⟨some "a", none, none⟩, ⟨some "b", none, none⟩] := by
    norm_num [weighted_random_pick, wrpLoop, pyChoicesOne, cumSum,
      bisectRightSorted, List.range_succ, List.indexOf_cons, List.eraseIdx]
  refine ⟨_, heval, ?_⟩
  have hmin := (weighted_random_pick_spec _ 2 (fun _ => 0) _ heval).1
  simpa using hmin

/-- C2 counterexample: with three all-zero-rating candidates and count 2 the
sampler raises `ValueError` instead of returning an output, so no output of
length `min 3 2` exists for this input. -/
theorem weighted_random_pick_cardinality_counterexample :
    weighted_random_pick
        [⟨some "x", some 0, some 60⟩, ⟨some "y", some 0, some 60⟩,
          ⟨some "z", some 0, some 60⟩] 2 (fun _ => 1/2) =
      Except.error "Total of weights must be greater than zero" ∧
    (weighted_random_pick
        [⟨some "x", some 0, some 60⟩, ⟨some "y", some 0, some 60⟩,
          ⟨some "z", some 0, some 60⟩] 2 (fun _ => 1/2)).toOption = none := by
  have heval : weighted_random_pick
      [⟨some "x", some 0, some 60⟩, ⟨some "y", some 0, some 60⟩,
        ⟨some "z", some 0, some 60⟩] 2 (fun _ => 1/2) =
      Except.error "Total of weights must be greater than zero" := by
    norm_num [weighted_random_pick, wrpLoop, pyChoicesOne, cumSum,
      bisectRightSorted]
  exact ⟨heval, by rw [heval]; rfl⟩

/-- C6: on an all-zero-weight pool with `count < len(candidates)` the code
raises `ValueError: Total of weights must be greater than zero` from
`random.choices` — there is no uniform-selection fallback, contradicting the
spec's stated zero-weight policy. -/
theorem weighted_random_pick_zero_weights_raises :
    weighted_random_pick
        [⟨some "a", some 0, some 100⟩, ⟨some "b", some 0, some 100⟩] 1
        (fun _ => 1/2) =
      Except.error "Total of weights must be greater than zero" := by
  norm_num [weighted_random_pick, wrpLoop, pyChoicesOne, cumSum,
    bisectRightSorted]
